import Mathlib

/-!
Shallow embedding of the BGAPI BLED112 driver (`bgapi.go`): the frame
reader (`bgFrameReader`), the header accessors (`bgFrameHeader`), the
operation dispatcher formed by the two goroutines started in
`OpenBLED112` together with `sendWithTimeout` and `onSerialPortData`,
and the event decoders (`parseEvent` and the per-class parsers).

Wire bytes are modelled as `Nat` (bytes on the wire are < 256; theorems
whose content depends on byte width carry explicit `< 256` hypotheses).
Multi-byte little-endian values are assembled as `b0 + 256 * b1 + ...`,
exactly as `binary.Read` with `binary.LittleEndian` does on byte input.
Go slice expressions `b[:n]` that panic when `n > len(b)` are modelled
with `Option`: `none` is a panic.
-/

namespace BgApi

/-- Header of a BGAPI frame, mirroring the Go struct `bgFrameHeader`
(`length uint16; packetClass uint8; packetCommand uint8`). -/
structure BgFrameHeader where
  length : Nat
  packetClass : Nat
  packetCommand : Nat
deriving Repr, DecidableEq

/-- Go `frameLengthGet`: `length & 0x7fff`. -/
def frameLengthGet (hdr : BgFrameHeader) : Nat := hdr.length % 32768

/-- Go `messageTypeGet`: `length >> 15` (on a `uint16`). -/
def messageTypeGet (hdr : BgFrameHeader) : Nat := hdr.length / 32768

/-- Go `technologyTypeGet`: `(length >> 11) & 0xf`. -/
def technologyTypeGet (hdr : BgFrameHeader) : Nat := hdr.length / 2048 % 16

/-- State of the Go `bgFrameReader`: the byte buffer `buf`, the most
recently parsed `header`, and the `inFrame` latch. -/
structure BgFrameReader where
  buf : List Nat
  header : BgFrameHeader
  inFrame : Bool
deriving Repr, DecidableEq

/-- The fresh frame reader (zero value in Go: empty buffer, zero header,
`inFrame = false`). -/
def initReader : BgFrameReader := ⟨[], ⟨0, 0, 0⟩, false⟩

/-- Go `bgFrameReader.append`: `fr.buf.Write(data)`. -/
def BgFrameReader.append (fr : BgFrameReader) (data : List Nat) : BgFrameReader :=
  { fr with buf := fr.buf ++ data }

/-- Header-latching phase of Go `hasFrame`: when not in a frame and at
least 4 bytes are buffered, `binary.Read` consumes them as the
little-endian header and sets `inFrame`. -/
def BgFrameReader.latch (fr : BgFrameReader) : BgFrameReader :=
  match fr.inFrame, fr.buf with
  | false, b0 :: b1 :: b2 :: b3 :: rest =>
      ⟨rest, ⟨b0 + 256 * b1, b2, b3⟩, true⟩
  | _, _ => fr

/-- Completion test of Go `hasFrame`: `fr.inFrame && (fr.buf.Len() >=
fr.header.frameLengthGet())`. -/
def BgFrameReader.ready (fr : BgFrameReader) : Bool :=
  fr.inFrame && decide (frameLengthGet fr.header ≤ fr.buf.length)

/-- Go `bgFrameReader.hasFrame`: parse a header if possible, then report
whether a full frame is buffered.  The updated reader state is returned
alongside the boolean since the Go method mutates the receiver. -/
def BgFrameReader.hasFrame (fr : BgFrameReader) : Bool × BgFrameReader :=
  (fr.latch.ready, fr.latch)

/-- Go `bgFrameReader.next`: return `(nil, nil)` when no header is
latched; otherwise clear `inFrame` and return `fr.buf.Next(n)` bytes
(`bytes.Buffer.Next` returns at most `n` bytes) with the header. -/
def BgFrameReader.next (fr : BgFrameReader) :
    Option (List Nat × BgFrameHeader) × BgFrameReader :=
  if fr.inFrame then
    (some (fr.buf.take (frameLengthGet fr.header), fr.header),
     { fr with inFrame := false, buf := fr.buf.drop (frameLengthGet fr.header) })
  else (none, fr)

/-- Termination measure for the frame-extraction loop of
`onSerialPortData`: each extracted frame either consumes buffered bytes
or clears the `inFrame` latch. -/
def mu (fr : BgFrameReader) : Nat :=
  2 * fr.buf.length + (if fr.inFrame then 1 else 0)

/-- Fuel-indexed version of the `for api.framer.hasFrame()` loop body of
`onSerialPortData`, restricted to frame extraction: repeatedly call
`hasFrame` and, when it reports a frame, `next`, collecting the
extracted `(payload, header)` pairs in order. -/
def drainFuel : Nat → BgFrameReader → List (List Nat × BgFrameHeader) × BgFrameReader
  | 0, fr => ([], fr)
  | fuel + 1, fr =>
    let p := fr.hasFrame
    if p.1 then
      let q := p.2.next
      match q.1 with
      | some f =>
        let r := drainFuel fuel q.2
        (f :: r.1, r.2)
      | none => ([], q.2)
    else ([], p.2)

/-- The frame-extraction loop of `onSerialPortData` run to completion:
`mu fr + 1` units of fuel always suffice. -/
def BgFrameReader.drain (fr : BgFrameReader) :
    List (List Nat × BgFrameHeader) × BgFrameReader :=
  drainFuel (mu fr + 1) fr

theorem latch_of_inFrame (fr : BgFrameReader) (h : fr.inFrame = true) :
    fr.latch = fr := by
  unfold BgFrameReader.latch
  rw [h]

theorem latch_cases (fr : BgFrameReader) :
    (fr.latch = fr ∧ (fr.inFrame = true ∨ fr.buf.length < 4)) ∨
    (∃ b0 b1 b2 b3 rest, fr.inFrame = false ∧ fr.buf = b0 :: b1 :: b2 :: b3 :: rest ∧
      fr.latch = ⟨rest, ⟨b0 + 256 * b1, b2, b3⟩, true⟩) := by
  rcases hin : fr.inFrame with _ | _
  · rcases hbuf : fr.buf with _ | ⟨b0, _ | ⟨b1, _ | ⟨b2, _ | ⟨b3, rest⟩⟩⟩⟩
    all_goals unfold BgFrameReader.latch
    all_goals rw [hin, hbuf]
    · exact Or.inl ⟨rfl, Or.inr (by simp)⟩
    · exact Or.inl ⟨rfl, Or.inr (by simp)⟩
    · exact Or.inl ⟨rfl, Or.inr (by simp)⟩
    · exact Or.inl ⟨rfl, Or.inr (by simp [hbuf])⟩
    · exact Or.inr ⟨b0, b1, b2, b3, rest, rfl, rfl, rfl⟩
  · exact Or.inl ⟨latch_of_inFrame fr hin, Or.inl rfl⟩

theorem latch_idem (fr : BgFrameReader) : fr.latch.latch = fr.latch := by
  rcases latch_cases fr with ⟨h, _⟩ | ⟨b0, b1, b2, b3, rest, _, _, h⟩
  · rw [h, h]
  · rw [h]; exact latch_of_inFrame _ rfl

theorem ready_inFrame (fr : BgFrameReader) (h : fr.ready = true) :
    fr.inFrame = true := by
  unfold BgFrameReader.ready at h
  exact (Bool.and_eq_true _ _ ▸ h).1

theorem ready_length (fr : BgFrameReader) (h : fr.ready = true) :
    frameLengthGet fr.header ≤ fr.buf.length := by
  unfold BgFrameReader.ready at h
  exact of_decide_eq_true (Bool.and_eq_true _ _ ▸ h).2

theorem next_of_ready (fr : BgFrameReader) (h : fr.ready = true) :
    fr.next = (some (fr.buf.take (frameLengthGet fr.header), fr.header),
      ⟨fr.buf.drop (frameLengthGet fr.header), fr.header, false⟩) := by
  unfold BgFrameReader.next
  rw [ready_inFrame fr h]
  rfl

theorem mu_step_lt (fr : BgFrameReader) (h : fr.latch.ready = true) :
    mu ⟨fr.latch.buf.drop (frameLengthGet fr.latch.header), fr.latch.header, false⟩ < mu fr := by
  rcases latch_cases fr with ⟨heq, hcase⟩ | ⟨b0, b1, b2, b3, rest, hin, hbuf, heq⟩
  · rw [heq] at h ⊢
    have hin := ready_inFrame fr h
    simp [mu, hin, List.length_drop]
    omega
  · rw [heq] at h ⊢
    simp [mu, hin, hbuf, List.length_drop]
    omega

theorem drainFuel_congr (n : Nat) : ∀ (m : Nat) (fr : BgFrameReader),
    mu fr < n → mu fr < m → drainFuel n fr = drainFuel m fr := by
  induction n with
  | zero => intro m fr h; omega
  | succ n ih =>
    intro m fr hn hm
    rcases m with _ | m
    · omega
    unfold drainFuel
    rcases hr : fr.latch.ready with _ | _
    · simp [BgFrameReader.hasFrame, hr]
    · simp only [BgFrameReader.hasFrame, hr, if_pos, next_of_ready _ hr]
      have hlt := mu_step_lt fr hr
      rw [ih m _ (by omega) (by omega)]

theorem drainFuel_succ_pos (n : Nat) (fr : BgFrameReader) (h : fr.latch.ready = true) :
    drainFuel (n + 1) fr =
      ((fr.latch.buf.take (frameLengthGet fr.latch.header), fr.latch.header) ::
        (drainFuel n ⟨fr.latch.buf.drop (frameLengthGet fr.latch.header),
          fr.latch.header, false⟩).1,
       (drainFuel n ⟨fr.latch.buf.drop (frameLengthGet fr.latch.header),
          fr.latch.header, false⟩).2) := by
  simp only [drainFuel, BgFrameReader.hasFrame, h, next_of_ready _ h, if_true]

theorem drainFuel_succ_neg (n : Nat) (fr : BgFrameReader) (h : fr.latch.ready = false) :
    drainFuel (n + 1) fr = ([], fr.latch) := by
  simp only [drainFuel, BgFrameReader.hasFrame, h, Bool.false_eq_true, if_false]

theorem drain_step (fr : BgFrameReader) (h : fr.latch.ready = true) :
    fr.drain =
      ((fr.latch.buf.take (frameLengthGet fr.latch.header), fr.latch.header) ::
        (BgFrameReader.drain ⟨fr.latch.buf.drop (frameLengthGet fr.latch.header),
          fr.latch.header, false⟩).1,
       (BgFrameReader.drain ⟨fr.latch.buf.drop (frameLengthGet fr.latch.header),
          fr.latch.header, false⟩).2) := by
  unfold BgFrameReader.drain
  rw [drainFuel_succ_pos (mu fr) fr h,
    drainFuel_congr (mu fr) (mu ⟨fr.latch.buf.drop (frameLengthGet fr.latch.header),
      fr.latch.header, false⟩ + 1) _ (mu_step_lt fr h) (Nat.lt_succ_self _)]

theorem drain_stop (fr : BgFrameReader) (h : fr.latch.ready = false) :
    fr.drain = ([], fr.latch) := by
  unfold BgFrameReader.drain
  exact drainFuel_succ_neg (mu fr) fr h

theorem latch_inFrame_false (fr : BgFrameReader) (h : fr.latch.inFrame = false) :
    fr.latch = fr := by
  rcases latch_cases fr with ⟨heq, _⟩ | ⟨b0, b1, b2, b3, rest, _, _, heq⟩
  · exact heq
  · rw [heq] at h
    simp at h

theorem append_inFrame (fr : BgFrameReader) (d : List Nat) :
    (fr.append d).inFrame = fr.inFrame := rfl

theorem append_header (fr : BgFrameReader) (d : List Nat) :
    (fr.append d).header = fr.header := rfl

theorem append_nil (fr : BgFrameReader) : fr.append [] = fr := by
  simp [BgFrameReader.append]

theorem append_append (fr : BgFrameReader) (a b : List Nat) :
    (fr.append a).append b = fr.append (a ++ b) := by
  simp [BgFrameReader.append]

theorem latch_append (fr : BgFrameReader) (d : List Nat) (h : fr.latch.inFrame = true) :
    (fr.append d).latch = fr.latch.append d := by
  rcases latch_cases fr with ⟨heq, _⟩ | ⟨b0, b1, b2, b3, rest, hin, hbuf, heq⟩
  · rw [heq] at h ⊢
    have : (fr.append d).inFrame = true := by rw [append_inFrame, h]
    exact latch_of_inFrame _ this
  · rw [heq]
    simp [BgFrameReader.append, BgFrameReader.latch, hin, hbuf]

theorem ready_append (fr : BgFrameReader) (d : List Nat) (h : fr.ready = true) :
    (fr.append d).ready = true := by
  have h1 := ready_inFrame fr h
  have h2 := ready_length fr h
  simp only [BgFrameReader.ready, BgFrameReader.append, h1, Bool.true_and,
    decide_eq_true_eq, List.length_append] at *
  omega

theorem drain_latch (fr : BgFrameReader) : fr.latch.drain = fr.drain := by
  rcases hr : fr.latch.ready with _ | _
  · rw [drain_stop fr hr, drain_stop fr.latch (by rw [latch_idem]; exact hr), latch_idem]
  · rw [drain_step fr hr, drain_step fr.latch (by rw [latch_idem]; exact hr), latch_idem]

theorem drain_quiescent_aux (n : Nat) : ∀ (fr : BgFrameReader), mu fr < n →
    (fr.drain.2).drain = ([], fr.drain.2) := by
  induction n with
  | zero => intro fr h; omega
  | succ n ih =>
    intro fr hn
    rcases hr : fr.latch.ready with _ | _
    · rw [drain_stop fr hr]
      rw [drain_stop fr.latch (by rw [latch_idem]; exact hr), latch_idem]
    · rw [drain_step fr hr]
      exact ih _ (by have := mu_step_lt fr hr; omega)

theorem drain_quiescent (fr : BgFrameReader) :
    (fr.drain.2).drain = ([], fr.drain.2) :=
  drain_quiescent_aux (mu fr + 1) fr (Nat.lt_succ_self _)

theorem drain_append_aux (n : Nat) : ∀ (fr : BgFrameReader) (d : List Nat), mu fr < n →
    (fr.append d).drain =
      (fr.drain.1 ++ ((fr.drain.2).append d).drain.1, ((fr.drain.2).append d).drain.2) := by
  induction n with
  | zero => intro fr d h; omega
  | succ n ih =>
    intro fr d hn
    rcases hr : fr.latch.ready with _ | _
    · rw [drain_stop fr hr]
      have heq : (fr.append d).drain = (fr.latch.append d).drain := by
        rcases h2 : fr.latch.inFrame with _ | _
        · rw [latch_inFrame_false fr h2]
        · rw [← drain_latch (fr.append d), latch_append fr d h2]
      rw [heq]
      simp
    · have h2 : fr.latch.inFrame = true := ready_inFrame _ hr
      have hle : frameLengthGet fr.latch.header ≤ fr.latch.buf.length := ready_length _ hr
      have hA : (fr.append d).latch = fr.latch.append d := latch_append fr d h2
      have hR : (fr.append d).latch.ready = true := by
        rw [hA]; exact ready_append _ _ hr
      rw [drain_step (fr.append d) hR, drain_step fr hr]
      rw [hA]
      have hbuf : (fr.latch.append d).buf = fr.latch.buf ++ d := rfl
      have hhdr : (fr.latch.append d).header = fr.latch.header := rfl
      rw [hbuf, hhdr, List.take_append_of_le_length hle, List.drop_append_of_le_length hle]
      have hfr2 :
          (⟨fr.latch.buf.drop (frameLengthGet fr.latch.header) ++ d,
            fr.latch.header, false⟩ : BgFrameReader) =
          BgFrameReader.append
            ⟨fr.latch.buf.drop (frameLengthGet fr.latch.header), fr.latch.header, false⟩ d := rfl
      rw [hfr2, ih _ d (by have := mu_step_lt fr hr; omega)]
      simp

/-- One `onSerialPortData`-style framing step: append a chunk of raw
transport bytes, then extract every complete frame. -/
def feed (fr : BgFrameReader) (data : List Nat) :
    List (List Nat × BgFrameHeader) × BgFrameReader :=
  (fr.append data).drain

/-- Feed a sequence of transport chunks one at a time, draining all
complete frames after each chunk, and collect the frames in order. -/
def feedChunks (fr : BgFrameReader) :
    List (List Nat) → List (List Nat × BgFrameHeader) × BgFrameReader
  | [] => ([], fr)
  | c :: cs =>
    ((feed fr c).1 ++ (feedChunks (feed fr c).2 cs).1, (feedChunks (feed fr c).2 cs).2)

theorem feedChunks_join (cs : List (List Nat)) : ∀ (fr : BgFrameReader),
    fr.drain = ([], fr) → feedChunks fr cs = feed fr cs.flatten := by
  induction cs with
  | nil =>
    intro fr hq
    simp [feedChunks, feed, append_nil, hq]
  | cons c cs ih =>
    intro fr hq
    have hjoin : (c :: cs).flatten = c ++ cs.flatten := rfl
    rw [hjoin]
    have hfeed : feed fr (c ++ cs.flatten) =
        ((feed fr c).1 ++ (feed (feed fr c).2 cs.flatten).1, (feed (feed fr c).2 cs.flatten).2) := by
      unfold feed
      rw [← append_append, drain_append_aux (mu (fr.append c) + 1) _ _ (Nat.lt_succ_self _)]
    rw [hfeed]
    have hq2 : ((feed fr c).2).drain = ([], (feed fr c).2) := drain_quiescent (fr.append c)
    unfold feedChunks
    rw [ih _ hq2]

/-- C3.  Chunking invariance of the frame codec: feeding a byte stream
to `bgFrameReader.append` in arbitrary chunks, draining all complete
frames via `hasFrame`/`next` after each chunk, extracts exactly the same
sequence of (payload, header) pairs as feeding all the bytes in one
single `append`. -/
theorem frameReader_chunking_invariance (cs : List (List Nat)) :
    (feedChunks initReader cs).1 = (feed initReader cs.flatten).1 := by
  rw [feedChunks_join cs initReader rfl]

/-- C5.  Parsing 4 buffered bytes `b0 b1 b2 b3` as a frame header:
with `w = b0 + 256 * b1` the little-endian 16-bit word, `frameLengthGet`
is the low 15 bits of `w`, `messageTypeGet` is bit 15, and
`technologyTypeGet` is bits 11-14 of the same word; `packetClass` is
`b2` and `packetCommand` is `b3`.  The header's 4 bytes are consumed
(`latch.buf = rest`), and `hasFrame` then requires `frameLengthGet`
further bytes beyond the header: the payload length never counts the
4 header bytes. -/
theorem header_field_views (b0 b1 b2 b3 : Nat) (rest : List Nat) (hdr0 : BgFrameHeader)
    (h0 : b0 < 256) (h1 : b1 < 256) :
    frameLengthGet (BgFrameReader.latch ⟨b0 :: b1 :: b2 :: b3 :: rest, hdr0, false⟩).header =
      (b0 + 256 * b1) % 2 ^ 15 ∧
    messageTypeGet (BgFrameReader.latch ⟨b0 :: b1 :: b2 :: b3 :: rest, hdr0, false⟩).header =
      (b0 + 256 * b1) / 2 ^ 15 ∧
    technologyTypeGet (BgFrameReader.latch ⟨b0 :: b1 :: b2 :: b3 :: rest, hdr0, false⟩).header =
      (b0 + 256 * b1) / 2 ^ 11 % 2 ^ 4 ∧
    (BgFrameReader.latch ⟨b0 :: b1 :: b2 :: b3 :: rest, hdr0, false⟩).header.packetClass = b2 ∧
    (BgFrameReader.latch ⟨b0 :: b1 :: b2 :: b3 :: rest, hdr0, false⟩).header.packetCommand = b3 ∧
    (BgFrameReader.latch ⟨b0 :: b1 :: b2 :: b3 :: rest, hdr0, false⟩).buf = rest ∧
    (BgFrameReader.hasFrame ⟨b0 :: b1 :: b2 :: b3 :: rest, hdr0, false⟩).1 =
      decide ((b0 + 256 * b1) % 2 ^ 15 ≤ rest.length) := by
  refine ⟨rfl, rfl, rfl, rfl, rfl, rfl, ?_⟩
  simp [BgFrameReader.hasFrame, BgFrameReader.latch, BgFrameReader.ready, frameLengthGet]

/-- Witness for `header_field_views` at bytes `1, 128, 3, 4`: the
length word is `32769`, so the payload length is `1`, the message kind
is `1` (event) and the technology type is `0`. -/
theorem header_field_views_witness :
    frameLengthGet (BgFrameReader.latch ⟨[1, 128, 3, 4, 7], ⟨0, 0, 0⟩, false⟩).header = 1 ∧
    messageTypeGet (BgFrameReader.latch ⟨[1, 128, 3, 4, 7], ⟨0, 0, 0⟩, false⟩).header = 1 ∧
    technologyTypeGet (BgFrameReader.latch ⟨[1, 128, 3, 4, 7], ⟨0, 0, 0⟩, false⟩).header = 0 ∧
    (BgFrameReader.latch ⟨[1, 128, 3, 4, 7], ⟨0, 0, 0⟩, false⟩).header.packetClass = 3 ∧
    (BgFrameReader.latch ⟨[1, 128, 3, 4, 7], ⟨0, 0, 0⟩, false⟩).header.packetCommand = 4 ∧
    (BgFrameReader.latch ⟨[1, 128, 3, 4, 7], ⟨0, 0, 0⟩, false⟩).buf = [7] ∧
    (BgFrameReader.hasFrame ⟨[1, 128, 3, 4, 7], ⟨0, 0, 0⟩, false⟩).1 = true := by
  have h := header_field_views 1 128 3 4 [7] ⟨0, 0, 0⟩ (by decide) (by decide)
  obtain ⟨a, b, c, d, e, f, g⟩ := h
  exact ⟨a, b, c, d, e, f, by rw [g]; decide⟩

/-- C10.  Totality of `bgFrameReader.next`: with no latched header it
returns `(nil, nil)` and leaves the reader (including its buffer)
unchanged; with a latched header but fewer than `frameLengthGet`
buffered bytes, `bytes.Buffer.Next` returns just the buffered bytes
(shorter than the payload length) and the in-frame latch is still
cleared, the buffer now empty. -/
theorem next_total (fr : BgFrameReader) :
    (fr.inFrame = false → fr.next = (none, fr)) ∧
    (fr.inFrame = true → fr.buf.length < frameLengthGet fr.header →
      fr.next = (some (fr.buf, fr.header), ⟨[], fr.header, false⟩)) := by
  constructor
  · intro h
    simp [BgFrameReader.next, h]
  · intro h hlt
    have h1 : fr.buf.take (frameLengthGet fr.header) = fr.buf :=
      List.take_of_length_le (Nat.le_of_lt hlt)
    have h2 : fr.buf.drop (frameLengthGet fr.header) = [] :=
      List.drop_eq_nil_of_le (Nat.le_of_lt hlt)
    simp [BgFrameReader.next, h, h1, h2]

/-- Witness for `next_total`: one reader with no latched header, one
with a latched header expecting 5 payload bytes while only 2 are
buffered. -/
theorem next_total_witness :
    BgFrameReader.next ⟨[1, 2], ⟨9, 0, 0⟩, false⟩ = (none, ⟨[1, 2], ⟨9, 0, 0⟩, false⟩) ∧
    BgFrameReader.next ⟨[1, 2], ⟨5, 0, 0⟩, true⟩ =
      (some ([1, 2], ⟨5, 0, 0⟩), ⟨[], ⟨5, 0, 0⟩, false⟩) := by
  constructor
  · exact (next_total ⟨[1, 2], ⟨9, 0, 0⟩, false⟩).1 rfl
  · exact (next_total ⟨[1, 2], ⟨5, 0, 0⟩, true⟩).2 rfl (by decide)

/-!
Event decoders.  A frame payload is consumed through a `bytes.Buffer`;
`buf.ReadByte()` on an empty buffer and `binary.Read` on a too-short
buffer leave the destination at its zero value (`binary.Read` uses
`io.ReadFull`, which consumes whatever is available and reports an
error that the Go code ignores).  These readers return the decoded
value together with the remaining buffer contents.
-/

/-- Go `buf.ReadByte()`: the byte, or zero on an empty buffer. -/
def readByte : List Nat → Nat × List Nat
  | [] => (0, [])
  | b :: rest => (b, rest)

/-- Go `binary.Read(buf, binary.LittleEndian, &x)` for a `uint16`:
little-endian assembly; a short buffer is consumed but leaves zero. -/
def read16 : List Nat → Nat × List Nat
  | b0 :: b1 :: rest => (b0 + 256 * b1, rest)
  | _ => (0, [])

/-- Go `binary.Read` for a `uint32`. -/
def read32 : List Nat → Nat × List Nat
  | b0 :: b1 :: b2 :: b3 :: rest =>
      (b0 + 256 * b1 + 65536 * b2 + 16777216 * b3, rest)
  | _ => (0, [])

/-- Go `binary.Read` into an `n`-byte struct: `io.ReadFull` either fills
all `n` bytes or consumes the whole (shorter) buffer and leaves the
destination zero. -/
def readRaw (n : Nat) (l : List Nat) : List Nat × List Nat :=
  (if n ≤ l.length then l.take n else List.replicate n 0, l.drop n)

/-- Little-endian 16-bit field at offset `i` of a raw struct image. -/
def le16At (raw : List Nat) (i : Nat) : Nat :=
  raw.getD i 0 + 256 * raw.getD (i + 1) 0

/-- Little-endian 32-bit field at offset `i` of a raw struct image. -/
def le32At (raw : List Nat) (i : Nat) : Nat :=
  raw.getD i 0 + 256 * raw.getD (i + 1) 0 + 65536 * raw.getD (i + 2) 0 +
    16777216 * raw.getD (i + 3) 0

/-- Byte field at offset `i` of a raw struct image. -/
def byteAt (raw : List Nat) (i : Nat) : Nat := raw.getD i 0

/-- Go `int8` view of a byte (for the RSSI field of scan responses). -/
def toInt8 (b : Nat) : Int := if b % 256 < 128 then (b % 256 : Int) else (b % 256 : Int) - 256

/-- Go `binary.Read` for an `int8`. -/
def readInt8 : List Nat → Int × List Nat
  | [] => (0, [])
  | b :: rest => (toInt8 b, rest)

/-- Go `SystemInfo`: five `uint16` fields then two bytes (12 bytes). -/
structure SystemInfo where
  major : Nat
  minor : Nat
  patch : Nat
  build : Nat
  llVersion : Nat
  protocolVersion : Nat
  hw : Nat
deriving Repr, DecidableEq

def readSystemInfo (l : List Nat) : SystemInfo × List Nat :=
  let q := readRaw 12 l
  (⟨le16At q.1 0, le16At q.1 2, le16At q.1 4, le16At q.1 6, le16At q.1 8,
    byteAt q.1 10, byteAt q.1 11⟩, q.2)

/-- Go `QualifiedMac`: a 6-byte MAC plus an address-type byte. -/
structure QualifiedMac where
  address : List Nat
  addrType : Nat
deriving Repr, DecidableEq

def readQualifiedMac (l : List Nat) : QualifiedMac × List Nat :=
  let q := readRaw 7 l
  (⟨q.1.take 6, byteAt q.1 6⟩, q.2)

/-- Go `ConnectionStatus` (16 bytes on the wire). -/
structure ConnectionStatus where
  connection : Nat
  flags : Nat
  address : QualifiedMac
  connInterval : Nat
  timeout : Nat
  latency : Nat
  bonding : Nat
deriving Repr, DecidableEq

def readConnectionStatus (l : List Nat) : ConnectionStatus × List Nat :=
  let q := readRaw 16 l
  (⟨byteAt q.1 0, byteAt q.1 1, ⟨(q.1.drop 2).take 6, byteAt q.1 8⟩,
    le16At q.1 9, le16At q.1 11, le16At q.1 13, byteAt q.1 15⟩, q.2)

/-- Go `ConnectionVersionIndication` (6 bytes on the wire). -/
structure ConnectionVersionIndication where
  connection : Nat
  version : Nat
  compID : Nat
  subVersion : Nat
deriving Repr, DecidableEq

def readConnectionVersionIndication (l : List Nat) : ConnectionVersionIndication × List Nat :=
  let q := readRaw 6 l
  (⟨byteAt q.1 0, byteAt q.1 1, le16At q.1 2, le16At q.1 4⟩, q.2)

/-- Go `SmBondStatus` (4 bytes on the wire). -/
structure SmBondStatus where
  bond : Nat
  keySize : Nat
  mitm : Nat
  keys : Nat
deriving Repr, DecidableEq

def readSmBondStatus (l : List Nat) : SmBondStatus × List Nat :=
  let q := readRaw 4 l
  (⟨byteAt q.1 0, byteAt q.1 1, byteAt q.1 2, byteAt q.1 3⟩, q.2)

/-- Go `IoPortStatus` (7 bytes on the wire: `uint32` then 3 bytes). -/
structure IoPortStatus where
  timestamp : Nat
  port : Nat
  irq : Nat
  state : Nat
deriving Repr, DecidableEq

def readIoPortStatus (l : List Nat) : IoPortStatus × List Nat :=
  let q := readRaw 7 l
  (⟨le32At q.1 0, byteAt q.1 4, byteAt q.1 5, byteAt q.1 6⟩, q.2)

/-- Go `GapScanRespone`. -/
structure GapScanRespone where
  rssi : Int
  packetType : Nat
  address : QualifiedMac
  bond : Nat
  data : List Nat
deriving Repr, DecidableEq

/-- One invocation of a `Delegate` method, with its decoded arguments. -/
inductive Call where
  | onSystemBoot (info : SystemInfo)
  | onSystemDebug (data : List Nat)
  | onSystemEndpointWatermarkRx (endpoint : Nat) (data : Nat)
  | onSystemEndpointWatermarkTx (endpoint : Nat) (data : Nat)
  | onSystemScriptFailure (addr : Nat) (reason : Nat)
  | onSystemNoLicenseKey
  | onFlashPsKey (key : Nat) (value : List Nat)
  | onAttributeValue (connection : Nat) (reason : Nat) (handle : Nat) (offset : Nat)
      (value : List Nat)
  | onAttributeUserReadRequest (connection : Nat) (handle : Nat) (offset : Nat) (maxSize : Nat)
  | onAttributeStatus (handle : Nat) (flags : Nat)
  | onConnectionStatus (status : ConnectionStatus)
  | onConnectionVersionIndication (ind : ConnectionVersionIndication)
  | onConnectionFeatureIndication (connection : Nat) (features : List Nat)
  | onConnectionRawRx (connection : Nat) (data : List Nat)
  | onConnectionDisconnected (connection : Nat) (reason : Nat)
  | onAttrclientIndicated (connection : Nat) (attrHandle : Nat)
  | onAttrclientProcedureCompleted (connection : Nat) (result : Nat) (chrHandle : Nat)
  | onAttrclientGroupFound (connection : Nat) (start : Nat) (stop : Nat) (uuid : List Nat)
  | onAttrclientAttributeFound (connection : Nat) (chrdecl : Nat) (value : Nat)
      (properties : Nat) (uuid : List Nat)
  | onAttrclientFindInformationFound (connection : Nat) (chrHandle : Nat) (uuid : List Nat)
  | onAttrclientAttributeValue (connection : Nat) (attHandle : Nat) (valueType : Nat)
      (value : List Nat)
  | onAttrclientReadMultipleResponse (connection : Nat) (handles : List Nat)
  | onGapScanResponse (resp : GapScanRespone)
  | onGapModeChanged (discover : Nat) (connect : Nat)
  | onSmSmpData (handle : Nat) (packet : Nat) (data : List Nat)
  | onSmBondingFail (handle : Nat) (result : Nat)
  | onSmPasskeyDisplay (handle : Nat) (passkey : Nat)
  | onSmPasskeyRequest (handle : Nat)
  | onSmBondStatus (status : SmBondStatus)
  | onHardwareIoPortStatus (status : IoPortStatus)
  | onHardwareSoftTimer (handle : Nat)
  | onHardwareAdcResult (input : Nat) (value : Int)
deriving Repr, DecidableEq

/-- Go `parseSystemEvent`.  `some calls` is the list of delegate
invocations; `none` would be a panic (this parser never panics). -/
def parseSystemEvent (cmdType : Nat) (payload : List Nat) : Option (List Call) :=
  match cmdType with
  | 0 =>
    let q := readSystemInfo payload
    some [Call.onSystemBoot q.1]
  | 1 =>
    let q := readByte payload
    some [Call.onSystemDebug q.2]
  | 2 =>
    let q1 := readByte payload
    let q2 := readByte q1.2
    some [Call.onSystemEndpointWatermarkRx q1.1 q2.1]
  | 3 =>
    let q1 := readByte payload
    let q2 := readByte q1.2
    some [Call.onSystemEndpointWatermarkTx q1.1 q2.1]
  | 4 =>
    let q1 := read16 payload
    let q2 := read16 q1.2
    some [Call.onSystemScriptFailure q1.1 q2.1]
  | 5 => some [Call.onSystemNoLicenseKey]
  | _ => some []

/-- Go `parseFlashPsEvent`. -/
def parseFlashPsEvent (cmdType : Nat) (payload : List Nat) : Option (List Call) :=
  if cmdType ≠ 0 then some []
  else
    let q1 := read16 payload
    let q2 := readByte q1.2
    some [Call.onFlashPsKey q1.1 q2.2]

/-- Go `parseAttributeEvent`.  Note: in case 2 the Go code declares
`handle` and `flags` but never reads them from the buffer, so the
delegate receives the zero values whatever the payload holds. -/
def parseAttributeEvent (cmdType : Nat) (payload : List Nat) : Option (List Call) :=
  match cmdType with
  | 0 =>
    let q1 := readByte payload
    let q2 := readByte q1.2
    let q3 := read16 q2.2
    let q4 := read16 q3.2
    let q5 := readByte q4.2
    some [Call.onAttributeValue q1.1 q2.1 q3.1 q4.1 q5.2]
  | 1 =>
    let q1 := readByte payload
    let q2 := read16 q1.2
    let q3 := read16 q2.2
    let q4 := readByte q3.2
    some [Call.onAttributeUserReadRequest q1.1 q2.1 q3.1 q4.1]
  | 2 => some [Call.onAttributeStatus 0 0]
  | _ => some []

/-- Go `parseConnectionEvent`.  Cases 2 and 3 slice
`buf.Bytes()[:length]`, which panics (`none`) when the length byte
exceeds the remaining payload.  Case 4 declares `connection` and
`reason` but never reads them, so zeros are delivered. -/
def parseConnectionEvent (cmdType : Nat) (payload : List Nat) : Option (List Call) :=
  match cmdType with
  | 0 =>
    let q := readConnectionStatus payload
    some [Call.onConnectionStatus q.1]
  | 1 =>
    let q := readConnectionVersionIndication payload
    some [Call.onConnectionVersionIndication q.1]
  | 2 =>
    let q1 := readByte payload
    let q2 := readByte q1.2
    if q2.1 ≤ q2.2.length then
      some [Call.onConnectionFeatureIndication q1.1 (q2.2.take q2.1)]
    else none
  | 3 =>
    let q1 := readByte payload
    let q2 := readByte q1.2
    if q2.1 ≤ q2.2.length then
      some [Call.onConnectionRawRx q1.1 (q2.2.take q2.1)]
    else none
  | 4 => some [Call.onConnectionDisconnected 0 0]
  | _ => some []

/-- Go `parseAttrclientEvent`.  Every case with a UUID/value/handle list
slices `buf.Bytes()[:length]`, panicking (`none`) when the length byte
exceeds the remaining payload. -/
def parseAttrclientEvent (cmdType : Nat) (payload : List Nat) : Option (List Call) :=
  if 6 < cmdType then some []
  else
    let q0 := readByte payload
    match cmdType with
    | 0 =>
      let q1 := read16 q0.2
      some [Call.onAttrclientIndicated q0.1 q1.1]
    | 1 =>
      let q1 := read16 q0.2
      let q2 := read16 q1.2
      some [Call.onAttrclientProcedureCompleted q0.1 q1.1 q2.1]
    | 2 =>
      let q1 := read16 q0.2
      let q2 := read16 q1.2
      let q3 := readByte q2.2
      if q3.1 ≤ q3.2.length then
        some [Call.onAttrclientGroupFound q0.1 q1.1 q2.1 (q3.2.take q3.1)]
      else none
    | 3 =>
      let q1 := read16 q0.2
      let q2 := read16 q1.2
      let q3 := readByte q2.2
      let q4 := readByte q3.2
      if q4.1 ≤ q4.2.length then
        some [Call.onAttrclientAttributeFound q0.1 q1.1 q2.1 q3.1 (q4.2.take q4.1)]
      else none
    | 4 =>
      let q1 := read16 q0.2
      let q2 := readByte q1.2
      if q2.1 ≤ q2.2.length then
        some [Call.onAttrclientFindInformationFound q0.1 q1.1 (q2.2.take q2.1)]
      else none
    | 5 =>
      let q1 := read16 q0.2
      let q2 := readByte q1.2
      let q3 := readByte q2.2
      if q3.1 ≤ q3.2.length then
        some [Call.onAttrclientAttributeValue q0.1 q1.1 q2.1 (q3.2.take q3.1)]
      else none
    | 6 =>
      let q1 := readByte q0.2
      if q1.1 ≤ q1.2.length then
        some [Call.onAttrclientReadMultipleResponse q0.1 (q1.2.take q1.1)]
      else none
    | _ => some []

/-- Go `parseSmEvent`.  Case 0 slices `buf.Bytes()[:dataLen]`,
panicking (`none`) when the length byte exceeds the remaining
payload. -/
def parseSmEvent (cmdType : Nat) (payload : List Nat) : Option (List Call) :=
  if cmdType = 4 then
    let q := readSmBondStatus payload
    some [Call.onSmBondStatus q.1]
  else if 4 < cmdType then some []
  else
    let q0 := readByte payload
    match cmdType with
    | 0 =>
      let q1 := readByte q0.2
      let q2 := readByte q1.2
      if q2.1 ≤ q2.2.length then
        some [Call.onSmSmpData q0.1 q1.1 (q2.2.take q2.1)]
      else none
    | 1 =>
      let q1 := read16 q0.2
      some [Call.onSmBondingFail q0.1 q1.1]
    | 2 =>
      let q1 := read32 q0.2
      some [Call.onSmPasskeyDisplay q0.1 q1.1]
    | 3 => some [Call.onSmPasskeyRequest q0.1]
    | _ => some []

/-- Go `parseGapEvent`. -/
def parseGapEvent (cmdType : Nat) (payload : List Nat) : Option (List Call) :=
  match cmdType with
  | 0 =>
    let q1 := readInt8 payload
    let q2 := readByte q1.2
    let q3 := readQualifiedMac q2.2
    let q4 := readByte q3.2
    some [Call.onGapScanResponse ⟨q1.1, q2.1, q3.1, q4.1, q4.2⟩]
  | 1 =>
    let q1 := readByte payload
    let q2 := readByte q1.2
    some [Call.onGapModeChanged q1.1 q2.1]
  | _ => some []

/-- Go `parseHardwareEvent`.  Case 2 declares `input` and `value` but
never reads them, so zeros are delivered. -/
def parseHardwareEvent (cmdType : Nat) (payload : List Nat) : Option (List Call) :=
  match cmdType with
  | 0 =>
    let q := readIoPortStatus payload
    some [Call.onHardwareIoPortStatus q.1]
  | 1 =>
    let q := readByte payload
    some [Call.onHardwareSoftTimer q.1]
  | 2 => some [Call.onHardwareAdcResult 0 0]
  | _ => some []

/-- Go `parseEvent`: two-level dispatch on `packetClass` then the
per-class command byte. -/
def parseEvent (hdr : BgFrameHeader) (payload : List Nat) : Option (List Call) :=
  match hdr.packetClass with
  | 0 => parseSystemEvent hdr.packetCommand payload
  | 1 => parseFlashPsEvent hdr.packetCommand payload
  | 2 => parseAttributeEvent hdr.packetCommand payload
  | 3 => parseConnectionEvent hdr.packetCommand payload
  | 4 => parseAttrclientEvent hdr.packetCommand payload
  | 5 => parseSmEvent hdr.packetCommand payload
  | 6 => parseGapEvent hdr.packetCommand payload
  | 7 => parseHardwareEvent hdr.packetCommand payload
  | _ => some []

/-- Slice-bound side condition of `parseConnectionEvent`: the explicit
length byte of cases 2 and 3 must not exceed the remaining payload
(otherwise the Go slice `buf.Bytes()[:n]` panics). -/
def connectionLenOk (cmdType : Nat) (payload : List Nat) : Bool :=
  match cmdType with
  | 2 =>
    let q1 := readByte payload
    let q2 := readByte q1.2
    decide (q2.1 ≤ q2.2.length)
  | 3 =>
    let q1 := readByte payload
    let q2 := readByte q1.2
    decide (q2.1 ≤ q2.2.length)
  | _ => true

/-- Slice-bound side condition of `parseAttrclientEvent` (cases 2-6). -/
def attrclientLenOk (cmdType : Nat) (payload : List Nat) : Bool :=
  match cmdType with
  | 2 =>
    let q0 := readByte payload
    let q1 := read16 q0.2
    let q2 := read16 q1.2
    let q3 := readByte q2.2
    decide (q3.1 ≤ q3.2.length)
  | 3 =>
    let q0 := readByte payload
    let q1 := read16 q0.2
    let q2 := read16 q1.2
    let q3 := readByte q2.2
    let q4 := readByte q3.2
    decide (q4.1 ≤ q4.2.length)
  | 4 =>
    let q0 := readByte payload
    let q1 := read16 q0.2
    let q2 := readByte q1.2
    decide (q2.1 ≤ q2.2.length)
  | 5 =>
    let q0 := readByte payload
    let q1 := read16 q0.2
    let q2 := readByte q1.2
    let q3 := readByte q2.2
    decide (q3.1 ≤ q3.2.length)
  | 6 =>
    let q0 := readByte payload
    let q1 := readByte q0.2
    decide (q1.1 ≤ q1.2.length)
  | _ => true

/-- Slice-bound side condition of `parseSmEvent` (case 0). -/
def smLenOk (cmdType : Nat) (payload : List Nat) : Bool :=
  match cmdType with
  | 0 =>
    let q0 := readByte payload
    let q1 := readByte q0.2
    let q2 := readByte q1.2
    decide (q2.1 ≤ q2.2.length)
  | _ => true

/-- Slice-bound side condition of the whole event decoder. -/
def eventLenOk (packetClass packetCommand : Nat) (payload : List Nat) : Bool :=
  match packetClass with
  | 3 => connectionLenOk packetCommand payload
  | 4 => attrclientLenOk packetCommand payload
  | 5 => smLenOk packetCommand payload
  | _ => true

theorem parseSystemEvent_total : ∀ (c : Nat) (p : List Nat),
    (parseSystemEvent c p).isSome = true
  | 0, _ => rfl
  | 1, _ => rfl
  | 2, _ => rfl
  | 3, _ => rfl
  | 4, _ => rfl
  | 5, _ => rfl
  | _ + 6, _ => rfl

theorem parseFlashPsEvent_total : ∀ (c : Nat) (p : List Nat),
    (parseFlashPsEvent c p).isSome = true
  | 0, _ => rfl
  | _ + 1, _ => rfl

theorem parseAttributeEvent_total : ∀ (c : Nat) (p : List Nat),
    (parseAttributeEvent c p).isSome = true
  | 0, _ => rfl
  | 1, _ => rfl
  | 2, _ => rfl
  | _ + 3, _ => rfl

theorem parseConnectionEvent_total : ∀ (c : Nat) (p : List Nat),
    connectionLenOk c p = true → (parseConnectionEvent c p).isSome = true
  | 0, _, _ => rfl
  | 1, _, _ => rfl
  | 2, p, h => by
    have h2 : (readByte (readByte p).2).1 ≤ (readByte (readByte p).2).2.length :=
      of_decide_eq_true h
    simp only [parseConnectionEvent]
    rw [if_pos h2]
    rfl
  | 3, p, h => by
    have h2 : (readByte (readByte p).2).1 ≤ (readByte (readByte p).2).2.length :=
      of_decide_eq_true h
    simp only [parseConnectionEvent]
    rw [if_pos h2]
    rfl
  | 4, _, _ => rfl
  | _ + 5, _, _ => rfl

theorem parseAttrclientEvent_total : ∀ (c : Nat) (p : List Nat),
    attrclientLenOk c p = true → (parseAttrclientEvent c p).isSome = true
  | 0, _, _ => rfl
  | 1, _, _ => rfl
  | 2, p, h => by
    have h2 : (readByte (read16 (read16 (readByte p).2).2).2).1 ≤
        (readByte (read16 (read16 (readByte p).2).2).2).2.length :=
      of_decide_eq_true h
    simp only [parseAttrclientEvent]
    rw [if_neg (by omega), if_pos h2]
    rfl
  | 3, p, h => by
    have h2 : (readByte (readByte (read16 (read16 (readByte p).2).2).2).2).1 ≤
        (readByte (readByte (read16 (read16 (readByte p).2).2).2).2).2.length :=
      of_decide_eq_true h
    simp only [parseAttrclientEvent]
    rw [if_neg (by omega), if_pos h2]
    rfl
  | 4, p, h => by
    have h2 : (readByte (read16 (readByte p).2).2).1 ≤
        (readByte (read16 (readByte p).2).2).2.length :=
      of_decide_eq_true h
    simp only [parseAttrclientEvent]
    rw [if_neg (by omega), if_pos h2]
    rfl
  | 5, p, h => by
    have h2 : (readByte (readByte (read16 (readByte p).2).2).2).1 ≤
        (readByte (readByte (read16 (readByte p).2).2).2).2.length :=
      of_decide_eq_true h
    simp only [parseAttrclientEvent]
    rw [if_neg (by omega), if_pos h2]
    rfl
  | 6, p, h => by
    have h2 : (readByte (readByte p).2).1 ≤ (readByte (readByte p).2).2.length :=
      of_decide_eq_true h
    simp only [parseAttrclientEvent]
    rw [if_neg (by omega), if_pos h2]
    rfl
  | _ + 7, _, _ => by
    simp only [parseAttrclientEvent]
    rw [if_pos (by omega)]
    rfl

theorem parseSmEvent_total : ∀ (c : Nat) (p : List Nat),
    smLenOk c p = true → (parseSmEvent c p).isSome = true
  | 0, p, h => by
    have h2 : (readByte (readByte (readByte p).2).2).1 ≤
        (readByte (readByte (readByte p).2).2).2.length :=
      of_decide_eq_true h
    simp only [parseSmEvent]
    rw [if_neg (by omega), if_neg (by omega), if_pos h2]
    rfl
  | 1, _, _ => rfl
  | 2, _, _ => rfl
  | 3, _, _ => rfl
  | 4, _, _ => rfl
  | _ + 5, _, _ => by
    simp only [parseSmEvent]
    rw [if_neg (by omega), if_pos (by omega)]
    rfl

theorem parseGapEvent_total : ∀ (c : Nat) (p : List Nat),
    (parseGapEvent c p).isSome = true
  | 0, _ => rfl
  | 1, _ => rfl
  | _ + 2, _ => rfl

theorem parseHardwareEvent_total : ∀ (c : Nat) (p : List Nat),
    (parseHardwareEvent c p).isSome = true
  | 0, _ => rfl
  | 1, _ => rfl
  | 2, _ => rfl
  | _ + 3, _ => rfl

/-- C6.  The endpoint-watermark scenario decodes as specified
(category 0, subtype 2, payload `[0x05, 0x7F]` invokes
`OnSystemEndpointWatermarkRx(5, 127)`), but the general claim fails:
`parseAttributeEvent` case 2 (category 2, subtype 2, the
`OnAttributeStatus` layout) never reads `handle` and `flags` from the
payload, so the delegate receives the zero values instead of the
little-endian fields `handle = 0x1234`, `flags = 1` present in the
payload `[0x34, 0x12, 0x01]`. -/
theorem attributeStatus_ignores_payload :
    parseSystemEvent 2 [5, 127] = some [Call.onSystemEndpointWatermarkRx 5 127] ∧
    parseAttributeEvent 2 [52, 18, 1] = some [Call.onAttributeStatus 0 0] ∧
    parseAttributeEvent 2 [52, 18, 1] ≠ some [Call.onAttributeStatus (52 + 256 * 18) 1] :=
  ⟨rfl, rfl, by decide⟩

/-- C7, counterexample.  Decoding can fail: an event frame of category
3 (connection), subtype 2 (feature indication) with payload `[0, 5]`
declares 5 feature bytes while none remain, and the Go slice
`buf.Bytes()[:featureLen]` panics (modelled as `none`). -/
theorem eventDecode_panic_counterexample :
    parseEvent ⟨32770, 3, 2⟩ [0, 5] = none := rfl

/-- C7, amended.  Whenever every explicit trailing length byte is
within the remaining payload (`eventLenOk`), decoding never fails; and
fixed-width fields read past the end of a short payload take the zero
value (`parseSmEvent 1 [7]` reports `result = 0`), while variable
length trailing reads deliver the remaining bytes. -/
theorem eventDecode_total_of_lenOk :
    (∀ (hdr : BgFrameHeader) (payload : List Nat),
      eventLenOk hdr.packetClass hdr.packetCommand payload = true →
      (parseEvent hdr payload).isSome = true) ∧
    parseSmEvent 1 [7] = some [Call.onSmBondingFail 7 0] ∧
    parseConnectionEvent 2 [1, 2, 9, 8] = some [Call.onConnectionFeatureIndication 1 [9, 8]] ∧
    parseSystemEvent 1 [9, 1, 2, 3] = some [Call.onSystemDebug [1, 2, 3]] := by
  refine ⟨?_, rfl, rfl, rfl⟩
  intro hdr payload h
  rcases hdr with ⟨len, cls, cmd⟩
  rcases cls with _ | _ | _ | _ | _ | _ | _ | _ | n
  · exact parseSystemEvent_total cmd payload
  · exact parseFlashPsEvent_total cmd payload
  · exact parseAttributeEvent_total cmd payload
  · exact parseConnectionEvent_total cmd payload h
  · exact parseAttrclientEvent_total cmd payload h
  · exact parseSmEvent_total cmd payload h
  · exact parseGapEvent_total cmd payload
  · exact parseHardwareEvent_total cmd payload
  · rfl

/-- Witness for `eventDecode_total_of_lenOk` at a connection feature
indication whose length byte is in bounds. -/
theorem eventDecode_total_of_lenOk_witness :
    eventLenOk 3 2 [1, 1, 9] = true ∧
    (parseEvent ⟨32770, 3, 2⟩ [1, 1, 9]).isSome = true :=
  ⟨by decide, eventDecode_total_of_lenOk.1 ⟨32770, 3, 2⟩ [1, 1, 9] (by decide)⟩

/-!
Operation dispatcher.  `sendWithTimeout` queues an `operation` on the
unbuffered channel `txC`; the writer goroutine of `OpenBLED112` pops
one operation at a time, writes `op.txData` and flushes, then waits in
a `select` for either a signal on `rxReplyC` or the timeout;
`onSerialPortData` (the reader goroutine) appends incoming transport
bytes to the framer, drains all complete frames and dispatches each
one against `api.pendingOp`.  The Go code contains no assignment to
`api.pendingOp` at all.  Completion closures are represented by
actions in an observable trace; the `id` field is a ghost identifier
that tracks which submission a write or completion belongs to. -/

/-- Go `error` values produced by the dispatcher: the timeout error
and the mismatch error (the protocol error whose message is
"received incorrect response type"). -/
inductive GoErr where
  | timedOut
  | incorrectResponseType
deriving Repr, DecidableEq

/-- Go `operation` struct (`class`, `cmd`, `txData`, `timeout`,
`completion`), plus the ghost `id`.  `class` is a Lean keyword, so the
field is named `cls`. -/
structure Op where
  id : Nat
  cls : Nat
  cmd : Nat
  txData : List Nat
  timeoutMs : Nat
deriving Repr, DecidableEq

/-- The command buffer built at the top of Go `sendWithTimeout`:
`binary.Write` of `class`, then `cmd`, then `data`.  (The Go code then
discards this buffer.) -/
def encodeCommand (cls cmd : Nat) (data : List Nat) : List Nat :=
  cls :: cmd :: data

/-- The `operation` value Go `sendWithTimeout` places on `txC`:
`&operation{class: class, cmd: cmd, txData: data, timeout: timeoutMs, ...}`.
Note `txData` is `data`, not the encoded command buffer. -/
def sendWithTimeout (i cls cmd : Nat) (data : List Nat) (timeoutMs : Nat) : Op :=
  ⟨i, cls, cmd, data, timeoutMs⟩

/-- Go `send`: `sendWithTimeout` with `defaultTimeoutMs = 1000`. -/
def send (i cls cmd : Nat) (data : List Nat) : Op :=
  sendWithTimeout i cls cmd data 1000

/-- Observable actions of the driver. -/
inductive Action where
  | write (id : Nat) (txBytes : List Nat)
  | flushSerial
  | complete (id : Nat) (payload : Option (List Nat)) (err : Option GoErr)
  | reportBadHeader
  | eventFrame (hdr : BgFrameHeader) (payload : List Nat) (calls : Option (List Call))
deriving Repr, DecidableEq

/-- Frame dispatch of Go `onSerialPortData`: a response frame
(`messageTypeGet = 0`) is correlated against `pendingOp` — completion
with a mismatch error if `class`/`cmd` differ, then a signal on
`rxReplyC` — or reported as a bad header when nothing is pending; an
event frame (`messageTypeGet = 1`) goes to `parseEvent`.  Returns the
emitted actions and the number of `rxReplyC` signals. -/
def dispatchFrame (pend : Option Op) (f : List Nat × BgFrameHeader) : List Action × Nat :=
  match messageTypeGet f.2 with
  | 0 =>
    match pend with
    | some p =>
      let err : Option GoErr :=
        if p.cls ≠ f.2.packetClass ∨ p.cmd ≠ f.2.packetCommand then
          some GoErr.incorrectResponseType
        else none
      ([Action.complete p.id (some f.1) err], 1)
    | none => ([Action.reportBadHeader], 0)
  | 1 => ([Action.eventFrame f.2 f.1 (parseEvent f.2 f.1)], 0)
  | _ => ([], 0)

/-- Go `onSerialPortData`: append the received bytes to the framer,
drain every complete frame, dispatch each in order.  Returns the
emitted actions, the number of `rxReplyC` signals, and the new framer
state. -/
def processData (pend : Option Op) (fr : BgFrameReader) (data : List Nat) :
    List Action × Nat × BgFrameReader :=
  ((((fr.append data).drain).1.map (fun f => (dispatchFrame pend f).1)).flatten,
   ((((fr.append data).drain).1.map (fun f => (dispatchFrame pend f).2)).sum,
    ((fr.append data).drain).2))

/-- Control point of the writer goroutine of `OpenBLED112`: blocked on
`<-api.txC`, or inside the `select` waiting for the reply or the
timeout of operation `op`. -/
inductive WriterPhase where
  | idle
  | awaiting (op : Op)
deriving Repr, DecidableEq

/-- Global state of the driver: the `txC` queue, the `pendingOp` slot,
the writer control point, the framer, the outstanding `rxReplyC`
signals, the action trace, and the next ghost id. -/
structure Sys where
  txQ : List Op
  pendingOp : Option Op
  writer : WriterPhase
  framer : BgFrameReader
  pendingSignals : Nat
  events : List Action
  nextId : Nat
deriving Repr, DecidableEq

/-- Initial state, as after `NewAPI` and `OpenBLED112`. -/
def initSys : Sys :=
  ⟨[], none, WriterPhase.idle, initReader, 0, [], 0⟩

/-- One step of the driver.  No rule assigns `pendingOp`: the Go source
contains no write to that field. -/
inductive Step : Sys → Sys → Prop where
  | submit (s : Sys) (cls cmd : Nat) (data : List Nat) (tmo : Nat) :
      Step s { s with txQ := s.txQ ++ [sendWithTimeout s.nextId cls cmd data tmo],
                      nextId := s.nextId + 1 }
  | writerTake (s : Sys) (op : Op) (rest : List Op)
      (hW : s.writer = WriterPhase.idle) (hQ : s.txQ = op :: rest) :
      Step s { s with txQ := rest, writer := WriterPhase.awaiting op,
                      events := s.events ++ [Action.write op.id op.txData, Action.flushSerial] }
  | timeoutFire (s : Sys) (op : Op) (hW : s.writer = WriterPhase.awaiting op) :
      Step s { s with writer := WriterPhase.idle,
                      events := s.events ++ [Action.complete op.id none (some GoErr.timedOut)] }
  | replyRecv (s : Sys) (op : Op) (hW : s.writer = WriterPhase.awaiting op)
      (hS : 0 < s.pendingSignals) :
      Step s { s with writer := WriterPhase.idle, pendingSignals := s.pendingSignals - 1 }
  | readerData (s : Sys) (data : List Nat) :
      Step s { s with
        framer := (processData s.pendingOp s.framer data).2.2,
        pendingSignals := s.pendingSignals + (processData s.pendingOp s.framer data).2.1,
        events := s.events ++ (processData s.pendingOp s.framer data).1 }

/-- States reachable from `initSys`. -/
def Reachable (s : Sys) : Prop :=
  Relation.ReflTransGen Step initSys s

/-- Ghost id of a write action. -/
def Action.writeId : Action → Option Nat
  | Action.write i _ => some i
  | _ => none

/-- Ghost id of a completion action. -/
def Action.completeId : Action → Option Nat
  | Action.complete i _ _ => some i
  | _ => none

/-- Ids of the operations written to the transport, in order. -/
def writtenIds (l : List Action) : List Nat := l.filterMap Action.writeId

/-- Ids of the operations whose completion was invoked, in order. -/
def completedIds (l : List Action) : List Nat := l.filterMap Action.completeId

/-- Id of the operation the writer is currently awaiting, if any. -/
def writerIds : WriterPhase → List Nat
  | WriterPhase.idle => []
  | WriterPhase.awaiting op => [op.id]

/-- Inductive invariant of the dispatcher. -/
def Inv (s : Sys) : Prop :=
  s.pendingOp = none ∧
  s.pendingSignals = 0 ∧
  writtenIds s.events = completedIds s.events ++ writerIds s.writer ∧
  (writtenIds s.events ++ s.txQ.map Op.id).Nodup ∧
  (∀ i ∈ writtenIds s.events ++ s.txQ.map Op.id, i < s.nextId) ∧
  (∀ a ∈ s.events, ∀ i p e, a = Action.complete i p e →
    p = none ∧ e = some GoErr.timedOut)

theorem dispatchFrame_none (f : List Nat × BgFrameHeader) :
    dispatchFrame none f = ([Action.reportBadHeader], 0) ∨
    dispatchFrame none f = ([Action.eventFrame f.2 f.1 (parseEvent f.2 f.1)], 0) ∨
    dispatchFrame none f = ([], 0) := by
  rcases h : messageTypeGet f.2 with _ | _ | k
  all_goals unfold dispatchFrame
  all_goals rw [h]
  · exact Or.inl rfl
  · exact Or.inr (Or.inl rfl)
  · exact Or.inr (Or.inr rfl)

theorem dispatch_none_ids (f : List Nat × BgFrameHeader) :
    writtenIds (dispatchFrame none f).1 = [] ∧
    completedIds (dispatchFrame none f).1 = [] ∧
    (dispatchFrame none f).2 = 0 := by
  rcases dispatchFrame_none f with h | h | h <;> rw [h] <;>
    simp [writtenIds, completedIds, Action.writeId, Action.completeId]

theorem ids_flatten_none (fs : List (List Nat × BgFrameHeader)) :
    writtenIds ((fs.map (fun f => (dispatchFrame none f).1)).flatten) = [] ∧
    completedIds ((fs.map (fun f => (dispatchFrame none f).1)).flatten) = [] ∧
    (fs.map (fun f => (dispatchFrame none f).2)).sum = 0 := by
  induction fs with
  | nil => exact ⟨rfl, rfl, rfl⟩
  | cons f fs ih =>
    obtain ⟨ih1, ih2, ih3⟩ := ih
    obtain ⟨d1, d2, d3⟩ := dispatch_none_ids f
    refine ⟨?_, ?_, ?_⟩
    · simp only [List.map_cons, List.flatten_cons, writtenIds, List.filterMap_append]
      rw [show (dispatchFrame none f).1.filterMap Action.writeId =
        writtenIds (dispatchFrame none f).1 from rfl, d1]
      exact ih1
    · simp only [List.map_cons, List.flatten_cons, completedIds, List.filterMap_append]
      rw [show (dispatchFrame none f).1.filterMap Action.completeId =
        completedIds (dispatchFrame none f).1 from rfl, d2]
      exact ih2
    · simp only [List.map_cons, List.sum_cons, d3, ih3]

theorem processData_none (fr : BgFrameReader) (d : List Nat) :
    writtenIds (processData none fr d).1 = [] ∧
    completedIds (processData none fr d).1 = [] ∧
    (processData none fr d).2.1 = 0 :=
  ids_flatten_none ((fr.append d).drain).1

theorem processData_none_no_complete (fr : BgFrameReader) (d : List Nat) :
    ∀ a ∈ (processData none fr d).1, ∀ i p e, a = Action.complete i p e → False := by
  intro a ha i p e hae
  have h := List.forall_none_of_filterMap_eq_nil (processData_none fr d).2.1 a ha
  rw [hae] at h
  cases h

theorem writtenIds_append (l1 l2 : List Action) :
    writtenIds (l1 ++ l2) = writtenIds l1 ++ writtenIds l2 :=
  List.filterMap_append ..

theorem completedIds_append (l1 l2 : List Action) :
    completedIds (l1 ++ l2) = completedIds l1 ++ completedIds l2 :=
  List.filterMap_append ..

theorem inv_step (s s2 : Sys) (h : Inv s) (hs : Step s s2) : Inv s2 := by
  obtain ⟨h1, h2, h3, h4, h5, h6⟩ := h
  cases hs with
  | submit cls cmd data tmo =>
    refine ⟨h1, h2, h3, ?_, ?_, h6⟩
    · show (writtenIds s.events ++
        (s.txQ ++ [sendWithTimeout s.nextId cls cmd data tmo]).map Op.id).Nodup
      rw [List.map_append, ← List.append_assoc]
      have hmid : writtenIds s.events ++ s.txQ.map Op.id ++
          [sendWithTimeout s.nextId cls cmd data tmo].map Op.id =
          writtenIds s.events ++ s.txQ.map Op.id ++ s.nextId :: [] := rfl
      rw [hmid, List.nodup_middle]
      rw [List.nodup_cons]
      refine ⟨?_, by simpa using h4⟩
      intro hmem
      have := h5 _ (by simpa using hmem)
      omega
    · intro i hi
      show i < s.nextId + 1
      rw [List.map_append, ← List.append_assoc] at hi
      rcases List.mem_append.mp hi with hi | hi
      · have := h5 _ hi; omega
      · have : i = s.nextId := by simpa using hi
        omega
  | writerTake op rest hW hQ =>
    refine ⟨h1, h2, ?_, ?_, ?_, ?_⟩
    · show writtenIds (s.events ++ [Action.write op.id op.txData, Action.flushSerial]) =
        completedIds (s.events ++ [Action.write op.id op.txData, Action.flushSerial]) ++
          writerIds (WriterPhase.awaiting op)
      rw [writtenIds_append, completedIds_append]
      rw [h3, hW]
      rfl
    · show (writtenIds (s.events ++ [Action.write op.id op.txData, Action.flushSerial]) ++
        rest.map Op.id).Nodup
      rw [writtenIds_append]
      have : writtenIds [Action.write op.id op.txData, Action.flushSerial] = [op.id] := rfl
      rw [this, List.append_assoc]
      have hcons : [op.id] ++ rest.map Op.id = (op :: rest).map Op.id := rfl
      rw [hcons, ← hQ]
      exact h4
    · intro i hi
      show i < s.nextId
      rw [writtenIds_append] at hi
      have : writtenIds [Action.write op.id op.txData, Action.flushSerial] = [op.id] := rfl
      rw [this, List.append_assoc] at hi
      have hcons : [op.id] ++ rest.map Op.id = (op :: rest).map Op.id := rfl
      rw [hcons, ← hQ] at hi
      exact h5 _ hi
    · intro a ha i p e hae
      rcases List.mem_append.mp ha with ha | ha
      · exact h6 a ha i p e hae
      · rw [hae] at ha
        simp at ha
  | timeoutFire op hW =>
    refine ⟨h1, h2, ?_, ?_, ?_, ?_⟩
    · show writtenIds (s.events ++ [Action.complete op.id none (some GoErr.timedOut)]) =
        completedIds (s.events ++ [Action.complete op.id none (some GoErr.timedOut)]) ++
          writerIds WriterPhase.idle
      rw [writtenIds_append, completedIds_append, h3, hW]
      simp [writtenIds, completedIds, Action.writeId, Action.completeId, writerIds]
    · show (writtenIds (s.events ++ [Action.complete op.id none (some GoErr.timedOut)]) ++
        s.txQ.map Op.id).Nodup
      rw [writtenIds_append]
      have : writtenIds [Action.complete op.id none (some GoErr.timedOut)] = [] := rfl
      rw [this, List.append_nil]
      exact h4
    · intro i hi
      show i < s.nextId
      rw [writtenIds_append] at hi
      have : writtenIds [Action.complete op.id none (some GoErr.timedOut)] = [] := rfl
      rw [this, List.append_nil] at hi
      exact h5 _ hi
    · intro a ha i p e hae
      rcases List.mem_append.mp ha with ha | ha
      · exact h6 a ha i p e hae
      · have : a = Action.complete op.id none (some GoErr.timedOut) := by simpa using ha
        rw [this] at hae
        cases hae
        exact ⟨rfl, rfl⟩
  | replyRecv op hW hS =>
    rw [h2] at hS
    omega
  | readerData data =>
    rw [h1]
    obtain ⟨p1, p2, p3⟩ := processData_none s.framer data
    refine ⟨rfl, ?_, ?_, ?_, ?_, ?_⟩
    · show s.pendingSignals + (processData none s.framer data).2.1 = 0
      rw [p3, h2]
    · show writtenIds (s.events ++ (processData none s.framer data).1) =
        completedIds (s.events ++ (processData none s.framer data).1) ++ writerIds s.writer
      rw [writtenIds_append, completedIds_append, p1, p2, List.append_nil, List.append_nil]
      exact h3
    · show (writtenIds (s.events ++ (processData none s.framer data).1) ++
        s.txQ.map Op.id).Nodup
      rw [writtenIds_append, p1, List.append_nil]
      exact h4
    · intro i hi
      show i < s.nextId
      rw [writtenIds_append, p1, List.append_nil] at hi
      exact h5 _ hi
    · intro a ha i p e hae
      rcases List.mem_append.mp ha with ha | ha
      · exact h6 a ha i p e hae
      · exact absurd hae (fun hc =>
          processData_none_no_complete s.framer data a ha i p e hc)

theorem inv_init : Inv initSys := by
  refine ⟨rfl, rfl, rfl, ?_, ?_, ?_⟩ <;>
    simp [initSys, writtenIds, completedIds, writerIds]

theorem inv_reachable (s : Sys) (h : Reachable s) : Inv s := by
  induction h with
  | refl => exact inv_init
  | tail h1 h2 ih => exact inv_step _ _ ih h2

/-- A `SystemHello` submission (class 0, cmd 1, empty data, default
timeout), ghost id 0. -/
def opHello : Op := sendWithTimeout 0 0 1 [] 1000

/-- State after submitting `opHello`. -/
def sysSubmitted : Sys := { initSys with txQ := [opHello], nextId := 1 }

/-- State after the writer pops `opHello` and writes its bytes. -/
def sysWriting : Sys :=
  { sysSubmitted with
    txQ := [],
    writer := WriterPhase.awaiting opHello,
    events := sysSubmitted.events ++ [Action.write opHello.id opHello.txData, Action.flushSerial] }

/-- State after `opHello` timed out. -/
def sysTimedOut : Sys :=
  { sysWriting with
    writer := WriterPhase.idle,
    events := sysWriting.events ++ [Action.complete opHello.id none (some GoErr.timedOut)] }

theorem reach_sysSubmitted : Reachable sysSubmitted :=
  Relation.ReflTransGen.tail Relation.ReflTransGen.refl (Step.submit initSys 0 1 [] 1000)

theorem reach_sysWriting : Reachable sysWriting :=
  Relation.ReflTransGen.tail reach_sysSubmitted
    (Step.writerTake sysSubmitted opHello [] rfl rfl)

theorem reach_sysTimedOut : Reachable sysTimedOut :=
  Relation.ReflTransGen.tail reach_sysWriting (Step.timeoutFire sysWriting opHello rfl)

/-- C1.  The claim fails on the code: the Go source never assigns
`api.pendingOp` (the writer goroutine of `OpenBLED112` writes
`op.txData` without arming the slot), so in every reachable state the
slot is `nil`.  In particular it never holds the submitted operation
strictly before the corresponding write, and every response frame is
handled by the `pendingOp == nil` branch and dropped. -/
theorem pendingOp_never_armed (s : Sys) (h : Reachable s) : s.pendingOp = none :=
  (inv_reachable s h).1

/-- Witness for `pendingOp_never_armed` at the state that has submitted
`opHello` and written its bytes: the slot is still `nil`. -/
theorem pendingOp_never_armed_witness : sysWriting.pendingOp = none :=
  pendingOp_never_armed sysWriting reach_sysWriting

/-- C2.  Completion discipline of the dispatcher as coded: completion
ids carry no duplicates (each operation's completion is invoked at most
once over the whole execution); every completion delivers exactly one
of payload or error — in every reachable state it is in fact always the
timeout error, with no payload, since responses never correlate; and
whenever the writer is idle, every operation ever written has been
completed exactly once.  A late response cannot invoke the completion a
second time: response frames reach the `pendingOp == nil` branch. -/
theorem completion_at_most_once (s : Sys) (h : Reachable s) :
    (completedIds s.events).Nodup ∧
    (∀ a ∈ s.events, ∀ i p e, a = Action.complete i p e →
      p = none ∧ e = some GoErr.timedOut) ∧
    (s.writer = WriterPhase.idle → completedIds s.events = writtenIds s.events) := by
  obtain ⟨h1, h2, h3, h4, h5, h6⟩ := inv_reachable s h
  refine ⟨?_, h6, ?_⟩
  · have hw : (writtenIds s.events).Nodup := h4.of_append_left
    rw [h3] at hw
    exact hw.of_append_left
  · intro hidle
    rw [h3, hidle]
    simp [writerIds]

/-- Witness for `completion_at_most_once` at the state where `opHello`
was written and timed out. -/
theorem completion_at_most_once_witness :
    (completedIds sysTimedOut.events).Nodup ∧
    (∀ a ∈ sysTimedOut.events, ∀ i p e, a = Action.complete i p e →
      p = none ∧ e = some GoErr.timedOut) ∧
    (sysTimedOut.writer = WriterPhase.idle →
      completedIds sysTimedOut.events = writtenIds sysTimedOut.events) :=
  completion_at_most_once sysTimedOut reach_sysTimedOut

/-- C4.  The claim fails on the code: `sendWithTimeout` builds the
buffer `[class, cmd, data...]` (`encodeCommand`) with three
`binary.Write` calls and then discards it, queueing the operation with
`txData: data`; the writer goroutine writes `op.txData`.  For
`SystemHello` (class 0, cmd 1, data `[]`) the bytes written to the
transport are `[]`, not `[0, 1]`. -/
theorem write_omits_class_and_cmd :
    opHello.txData = [] ∧
    encodeCommand 0 1 [] = [0, 1] ∧
    opHello.txData ≠ encodeCommand 0 1 [] ∧
    Reachable sysWriting ∧
    sysWriting.events = [Action.write 0 opHello.txData, Action.flushSerial] :=
  ⟨rfl, rfl, by decide, reach_sysWriting, rfl⟩

/-- C8.  A response frame correlated while an operation is pending,
with mismatched (class, cmd), invokes the pending completion with the
protocol error ("received incorrect response type") rather than being
silently discarded, and still signals `rxReplyC` so the writer moves
on; and no operation is ever written twice (the failed operation is
not retried). -/
theorem mismatch_fails_current_operation :
    (∀ (p : Op) (hdr : BgFrameHeader) (payload : List Nat),
      messageTypeGet hdr = 0 →
      (p.cls ≠ hdr.packetClass ∨ p.cmd ≠ hdr.packetCommand) →
      dispatchFrame (some p) (payload, hdr) =
        ([Action.complete p.id (some payload) (some GoErr.incorrectResponseType)], 1)) ∧
    (∀ s : Sys, Reachable s → (writtenIds s.events).Nodup) := by
  constructor
  · intro p hdr payload hk hm
    simp only [dispatchFrame]
    rw [hk, if_pos hm]
  · intro s h
    exact ((inv_reachable s h).2.2.2.1).of_append_left

/-- Witness for `mismatch_fails_current_operation`: the pending
`opHello` (class 0, cmd 1) against a response frame of class 3, cmd 3,
and the no-duplicate-write fact at a reachable state. -/
theorem mismatch_fails_current_operation_witness :
    dispatchFrame (some opHello) ([7], ⟨0, 3, 3⟩) =
      ([Action.complete 0 (some [7]) (some GoErr.incorrectResponseType)], 1) ∧
    (writtenIds sysWriting.events).Nodup :=
  ⟨mismatch_fails_current_operation.1 opHello ⟨0, 3, 3⟩ [7] rfl (Or.inl (by decide)),
   mismatch_fails_current_operation.2 sysWriting reach_sysWriting⟩

/-- State after feeding a complete response frame `[0, 0, 9, 9]`
(length 0, kind response, class 9, cmd 9) to the reader while nothing
is pending. -/
def sysAfterBadHeader : Sys :=
  { initSys with
    framer := (processData initSys.pendingOp initSys.framer [0, 0, 9, 9]).2.2,
    pendingSignals := initSys.pendingSignals +
      (processData initSys.pendingOp initSys.framer [0, 0, 9, 9]).2.1,
    events := initSys.events ++ (processData initSys.pendingOp initSys.framer [0, 0, 9, 9]).1 }

/-- `sysAfterBadHeader` after a subsequent submission of `opHello`. -/
def sysB2 : Sys :=
  { sysAfterBadHeader with
    txQ := sysAfterBadHeader.txQ ++
      [sendWithTimeout sysAfterBadHeader.nextId 0 1 [] 1000],
    nextId := sysAfterBadHeader.nextId + 1 }

/-- `sysB2` after the writer pops and writes the new operation. -/
def sysB3 : Sys :=
  { sysB2 with
    txQ := [],
    writer := WriterPhase.awaiting opHello,
    events := sysB2.events ++ [Action.write opHello.id opHello.txData, Action.flushSerial] }

theorem reach_sysB3 : Reachable sysB3 :=
  Relation.ReflTransGen.tail
    (Relation.ReflTransGen.tail
      (Relation.ReflTransGen.tail Relation.ReflTransGen.refl
        (Step.readerData initSys [0, 0, 9, 9]))
      (Step.submit sysAfterBadHeader 0 1 [] 1000))
    (Step.writerTake sysB2 opHello [] rfl rfl)

/-- C9.  A response-kind frame completing while nothing is pending
invokes no completion: the dispatch emits only the report
(the "FIXME received bad header!" print) and no `rxReplyC` signal;
processing of the remaining frames continues (`processData` dispatches
every drained frame and never emits a completion when `pendingOp` is
`nil`); and a subsequent submit still works: from the initial state,
feeding such a frame and then submitting an operation reaches a state
whose trace is the report followed by the new operation's write. -/
theorem unsolicited_response_dropped :
    (∀ (hdr : BgFrameHeader) (payload : List Nat), messageTypeGet hdr = 0 →
      dispatchFrame none (payload, hdr) = ([Action.reportBadHeader], 0)) ∧
    (∀ (fr : BgFrameReader) (d : List Nat),
      completedIds (processData none fr d).1 = [] ∧ (processData none fr d).2.1 = 0) ∧
    (Reachable sysB3 ∧
      sysB3.events = [Action.reportBadHeader, Action.write 0 [], Action.flushSerial] ∧
      sysB3.writer = WriterPhase.awaiting opHello) := by
  refine ⟨?_, ?_, reach_sysB3, rfl, rfl⟩
  · intro hdr payload hk
    simp only [dispatchFrame]
    rw [hk]
  · intro fr d
    exact ⟨(processData_none fr d).2.1, (processData_none fr d).2.2⟩

/-- Witness for `unsolicited_response_dropped` at the concrete frame
`[0, 0, 9, 9]` fed to a fresh reader. -/
theorem unsolicited_response_dropped_witness :
    dispatchFrame none ([], ⟨0, 9, 9⟩) = ([Action.reportBadHeader], 0) ∧
    completedIds (processData none initReader [0, 0, 9, 9]).1 = [] :=
  ⟨unsolicited_response_dropped.1 ⟨0, 9, 9⟩ [] rfl,
   (unsolicited_response_dropped.2.1 initReader [0, 0, 9, 9]).1⟩

end BgApi
